import Mathlib

/-!
Verification development for the Zenorc payment pipeline (`src/zenorc.py`).

The Python program is shallowly embedded:
* message bodies are `List Char`; `str.lower` is `Char.toLower` mapped;
* the substring test `x in s` is the executable `hasSub`;
* the classifier `_looks_like_credit`, the extractor `_extract_txn_id`
  (its two regular expressions unfolded into explicit alternative lists,
  following Python's backtracking preference order), the inbox pass
  `poll_email`, the MQTT retry loop `send_mqtt`, the ingestion step of
  `main_loop` and the `processor` scheduler are translated function by
  function;
* the two daemon threads are modelled as an interleaved transition
  relation `SysStep` with explicit, monotone timestamps, plus ghost
  history fields (ids ever enqueued, ids ever popped, terminal-transition
  timestamps) used only to state the temporal claims.
-/

/-- A transaction identifier, as the Python code handles it: a string. -/
abbrev Txn := List Char

-- ── string utilities (Python `str.lower`, substring `in`) ──────────

/-- Python `s.lower()` on the char-list view of a string. -/
def lowerL (l : List Char) : List Char := l.map Char.toLower

/-- Does the second list start with the first (needle-first argument order)? -/
def hasPre : List Char → List Char → Bool
  | [], _ => true
  | _ :: _, [] => false
  | a :: as, b :: bs => if a = b then hasPre as bs else false

/-- Python substring test `n in h` on char lists. -/
def hasSub (n : List Char) : List Char → Bool
  | [] => n.isEmpty
  | c :: cs => hasPre n (c :: cs) || hasSub n cs

-- ── configuration constants (defaults of zenorc.py lines 30-31) ────

/-- Embeds `SEARCH_STRINGS` (zenorc.py line 30) with the default
environment: `"₹5,Rs 5,INR 5"` split on commas, stripped, lowered. -/
def SEARCH_STRINGS : List Txn := ["₹5".data, "rs 5".data, "inr 5".data]

/-- Embeds `COOLDOWN_SECONDS` (zenorc.py line 31) with its default `40`. -/
def COOLDOWN_SECONDS : Nat := 40

-- ── the classifier `_looks_like_credit` (zenorc.py lines 150-162) ──

/-- Embeds `_looks_like_credit`: lowercase the body, require the word
`credited`, forbid `debited`, and require one of the two exact phrases
`successfully credited` / `has been credited`. -/
def looks_like_credit (body : List Char) : Bool :=
  let body_l := lowerL body
  hasSub "credited".data body_l
    && !(hasSub "debited".data body_l)
    && (hasSub "successfully credited".data body_l
        || hasSub "has been credited".data body_l)

-- ── the extractor `_extract_txn_id` (zenorc.py lines 133-147) ──────

/-- Python `\s` whitespace class (ASCII part; the bodies involved are ASCII). -/
def isWS (c : Char) : Bool :=
  c = ' ' || c = '\t' || c = '\n' || c = '\r' || c = '\x0b' || c = '\x0c'

/-- Drop leading regex `\s*` whitespace, greedily. -/
def skipWS (l : List Char) : List Char := l.dropWhile isWS

/-- If `n` is a literal prefix of `l`, the remainder; otherwise `none`. -/
def dropPre (n : List Char) (l : List Char) : Option (List Char) :=
  if hasPre n l then some (l.drop n.length) else none

/-- First `some` in a list of candidate continuations (regex alternative
order: earlier alternatives are preferred, as in Python backtracking). -/
def firstSome : List (Option α) → Option α
  | [] => none
  | some a :: _ => some a
  | none :: rest => firstSome rest

/-- Shared tail of both patterns: `\s*[:\-]?\s*(\d{8,})` — skip spaces, an
optional `:` or `-` separator, spaces again, then capture a maximal digit
run of length at least 8. -/
def matchSepDigits (l : List Char) : Option (List Char) :=
  let l1 := skipWS l
  let l2 :=
    match l1 with
    | ':' :: rest => rest
    | '-' :: rest => rest
    | _ => l1
  let l3 := skipWS l2
  let ds := l3.takeWhile Char.isDigit
  if 8 ≤ ds.length then some ds else none

/-- Pattern 1, `Reference\s*(?:No\.?|number)?\s*[:\-]?\s*(\d{8,})`, matched
at the head of an already-lowercased suffix.  The optional group's
alternatives are tried in Python's preference order: `no.`, `no`,
`number`, then the group absent. -/
def matchP1At (l : List Char) : Option (List Char) :=
  match dropPre "reference".data l with
  | none => none
  | some r1 =>
    let r2 := skipWS r1
    firstSome
      [ (dropPre "no.".data r2).bind (fun r => matchSepDigits (skipWS r))
      , (dropPre "no".data r2).bind (fun r => matchSepDigits (skipWS r))
      , (dropPre "number".data r2).bind (fun r => matchSepDigits (skipWS r))
      , matchSepDigits r2 ]

/-- Pattern 2, `transaction reference number\s*(?:is)?\s*[:\-]?\s*(\d{8,})`,
matched at the head of an already-lowercased suffix. -/
def matchP2At (l : List Char) : Option (List Char) :=
  match dropPre "transaction reference number".data l with
  | none => none
  | some r1 =>
    let r2 := skipWS r1
    firstSome
      [ (dropPre "is".data r2).bind (fun r => matchSepDigits (skipWS r))
      , matchSepDigits r2 ]

/-- Python re.search: try the pattern at every start position, leftmost
first. -/
def searchAt (f : List Char → Option α) : List Char → Option α
  | [] => f []
  | c :: cs =>
    match f (c :: cs) with
    | some r => some r
    | none => searchAt f cs

/-- Embeds `_extract_txn_id`: try pattern 1 anywhere, then pattern 2
anywhere, else synthesize `TXN{int(time.time())}` from the clock `t`.
Matching is on the lowered body (the `re.I` flag); the captured group is
a digit run, unchanged by lowering. -/
def extract_txn_id (body : List Char) (t : Nat) : Txn :=
  match searchAt matchP1At (lowerL body) with
  | some ds => ds
  | none =>
    match searchAt matchP2At (lowerL body) with
    | some ds => ds
    | none => "TXN".data ++ (toString t).data

/-- The classification step of `poll_email` (zenorc.py lines 189-194):
a notification yields a transaction id exactly when `_looks_like_credit`
holds of its body, the id coming from `_extract_txn_id`. -/
def classify (body : List Char) (t : Nat) : Option Txn :=
  if looks_like_credit body then some (extract_txn_id body t) else none

-- ── the dispatcher `send_mqtt` (zenorc.py lines 87-121) ────────────

/-- The observable outcome of one iteration of the `for attempt` loop in
`send_mqtt`.  `raises` covers any exception escaping the `try` body —
`client.connect` failing at transport level, or the bounded
`connected.wait(timeout=5)` expiring and raising `TimeoutError`.
`publishRc rc` means control reached `client.publish`, which returned
result code `rc` (`0` is `MQTT_ERR_SUCCESS`); an authentication-rejected
connection surfaces here as a non-zero code such as `MQTT_ERR_NO_CONN`,
because this code's `on_connect` sets the `connected` flag without
inspecting the reason code. -/
inductive MqttAttempt where
  | raises
  | publishRc (rc : Nat)
deriving DecidableEq

/-- One run of the `for attempt in range(1, max_retries + 1)` loop.
`attempt` is the 1-based attempt counter; the structural argument is the
number of attempts still allowed including the current one.  Returns
`(result, attempts made, sleeps taken)`: on `publishRc rc` the function
returns `rc == 0` immediately (zenorc.py line 116); on an exception it
sleeps `retry_delay` only when `attempt < max_retries` (line 119-120) and
retries; falling off the loop returns `False` (line 121). -/
def send_loop (f : Nat → MqttAttempt) (attempt : Nat) :
    Nat → Nat → Nat → Bool × Nat × Nat
  | 0, made, sleeps => (false, made, sleeps)
  | remaining + 1, made, sleeps =>
    match f attempt with
    | .publishRc rc => (decide (rc = 0), made + 1, sleeps)
    | .raises =>
      send_loop f (attempt + 1) remaining (made + 1)
        (if remaining = 0 then sleeps else sleeps + 1)

/-- Embeds `send_mqtt`: run the attempt loop from attempt 1 with
`max_retries` attempts allowed, no attempts made and no sleeps taken. -/
def send_mqtt (f : Nat → MqttAttempt) (max_retries : Nat) : Bool × Nat × Nat :=
  send_loop f 1 max_retries 0 0

-- ── the inbox pass `poll_email` (zenorc.py lines 165-198) ──────────

/-- One unseen message as the pass sees it: its IMAP uid (modelled as a
number) and its extracted plain-text body. -/
structure Mail where
  uid : Nat
  body : List Char
deriving DecidableEq

/-- What one call of `poll_email` leaves behind: the in-memory `seen_uids`
set after the call, the uids flagged `\Seen` at the server during the
call, and the returned transaction id, if any.  Every message fetched
with `mail.fetch(uid, "(RFC822)")` is flagged: per RFC 3501 the RFC822
item is `BODY[]`, whose fetch implicitly sets `\Seen` (Gmail honors
this), so `marked` collects every examined uid, not only the accepted
one whose uid the code also flags explicitly. -/
structure PollResult where
  seen : List Nat
  marked : List Nat
  found : Option Txn
deriving DecidableEq

/-- The windowing `(data[0] or b"").split()[-30:][::-1]`: the IMAP search
result is uid-ascending (oldest first); take the last 30 and reverse, so
the pass walks newest-first. -/
def pollWindow (mb : List Mail) : List Mail :=
  (mb.drop (mb.length - 30)).reverse

/-- The body of `poll_email`'s `for uid in ...` loop: skip uids already in
`seen_uids` (the `continue` happens before any fetch); otherwise fetch
the message — which implicitly flags it `\Seen` at the server, so its
uid joins `marked` — and classify it.  On the first body passing
`_looks_like_credit`, additionally add the uid to the in-memory
`seen_uids` (and flag it explicitly, already recorded) and return the
extracted id.  A rejected body falls through with only the implicit
server-side flag: its uid never enters `seen_uids`. -/
def poll_go (t : Nat) (seen : List Nat) (marked : List Nat) : List Mail → PollResult
  | [] => ⟨seen, marked, none⟩
  | m :: rest =>
    if m.uid ∈ seen then poll_go t seen marked rest
    else
      match classify m.body t with
      | some txn => ⟨m.uid :: seen, marked ++ [m.uid], some txn⟩
      | none => poll_go t seen (marked ++ [m.uid]) rest

/-- Embeds `poll_email` over the current unseen mailbox `mb`, the
in-memory `seen_uids`, and the clock `t` (used only by the fallback id). -/
def poll_email (seen : List Nat) (mb : List Mail) (t : Nat) : PollResult :=
  poll_go t seen [] (pollWindow mb)

-- ── the shared pipeline state and the two loops ────────────────────

/-- The per-transaction status strings of zenorc.py. -/
inductive TxnStatus where
  | Queued
  | Processing
  | Completed
  | Failed
deriving DecidableEq

/-- Python dict lookup on an association list. -/
def lookupSt : List (Txn × TxnStatus) → Txn → Option TxnStatus
  | [], _ => none
  | (k, v) :: rest, t => if k = t then some v else lookupSt rest t

/-- Python dict assignment `status[k] = v` on an association list. -/
def setSt : List (Txn × TxnStatus) → Txn → TxnStatus → List (Txn × TxnStatus)
  | [], k, v => [(k, v)]
  | (k', v') :: rest, k, v =>
    if k' = k then (k, v) :: rest else (k', v') :: setSt rest k v

/-- The shared in-memory state of zenorc.py (lines 35-39) together with
ghost observation history.  `seen_txn_ids`, `statusMap`, `queue`,
`last_processed` are the module globals; `processing` holds the id
between the scheduler's pop and its terminal transition; `clock` is the
scheduler's last observed `time.time()`.  The ghost fields record, in
order: every id ever appended to the queue (`enqueued`), every id ever
popped (`dispatched`), every id that reached a terminal status
(`terminalIds`), and the terminal-transition timestamps newest-first
(`terminals`). -/
structure PipeState where
  seen_txn_ids : List Txn
  statusMap : List (Txn × TxnStatus)
  queue : List Txn
  last_processed : Nat
  processing : Option Txn
  clock : Nat
  enqueued : List Txn
  dispatched : List Txn
  terminalIds : List Txn
  terminals : List Nat
deriving DecidableEq

/-- The enqueue half of one `main_loop` iteration (zenorc.py lines
240-244), given the id `poll_email` returned.  If the id is new to both
the status map and `seen_txn_ids`: set its status to `Queued`, run
`log_payment` — which appends the ledger row and, only when that append
succeeds (`ledger_ok`), adds the id to `seen_txn_ids` (lines 79-80; on
failure the `except` branch skips the add) — and append it to the queue. -/
def ingestStep (p : PipeState) (res : Option Txn) (ledger_ok : Bool) : PipeState :=
  match res with
  | none => p
  | some txn =>
    if lookupSt p.statusMap txn = none ∧ txn ∉ p.seen_txn_ids then
      { p with
        statusMap := setSt p.statusMap txn .Queued
        seen_txn_ids := if ledger_ok then txn :: p.seen_txn_ids else p.seen_txn_ids
        queue := p.queue ++ [txn]
        enqueued := p.enqueued ++ [txn] }
    else p

/-- The whole system state: the unseen mailbox at the source, the
in-memory `seen_uids`, and the pipeline state. -/
structure SysState where
  mailbox : List Mail
  seen_uids : List Nat
  pipe : PipeState
deriving DecidableEq

/-- One full `main_loop` iteration (zenorc.py lines 240-246): run
`poll_email`; every mail it flagged `\Seen` — implicitly by the RFC822
fetch, explicitly in the accept branch — leaves the server's unseen
set, so the next `(UNSEEN)` search no longer returns it; keep the
updated `seen_uids`, and run the enqueue step on the result with ledger
outcome `ledger_ok`. -/
def main_tick (s : SysState) (t : Nat) (ledger_ok : Bool) : SysState :=
  let r := poll_email s.seen_uids s.mailbox t
  { mailbox := s.mailbox.filter (fun m => decide (m.uid ∉ r.marked))
    seen_uids := r.seen
    pipe := ingestStep s.pipe r.found ledger_ok }

/-- The scheduler's pop (zenorc.py lines 205-210): take the queue head,
set its status to `Processing`, record it as in flight at time `now`. -/
def popApply (p : PipeState) (txn : Txn) (rest : List Txn) (now : Nat) : PipeState :=
  { p with
    queue := rest
    statusMap := setSt p.statusMap txn .Processing
    processing := some txn
    clock := now
    dispatched := p.dispatched ++ [txn] }

/-- The scheduler's terminal transition (zenorc.py lines 212-214): when
`send_mqtt` returns `ok`, set the status to `Completed` or `Failed` and —
in either case — set `last_processed` to the current time `now`. -/
def finishApply (p : PipeState) (txn : Txn) (ok : Bool) (now : Nat) : PipeState :=
  { p with
    statusMap := setSt p.statusMap txn (if ok then .Completed else .Failed)
    processing := none
    last_processed := now
    clock := now
    terminalIds := p.terminalIds ++ [txn]
    terminals := now :: p.terminals }

/-- The interleaved transitions of the two daemon threads, plus mail
arrival.  `tick` is one `main_loop` iteration; `arrive` is a new unseen
mail appearing at the source; `pop` fires only when nothing is in flight,
the queue is non-empty and `now - last_processed ≥ COOLDOWN_SECONDS`
(zenorc.py line 207); `finish` ends the in-flight dispatch.  Timestamps
are monotone (`time.time()` reads of one thread). -/
inductive SysStep : SysState → SysState → Prop where
  | tick (s : SysState) (t : Nat) (ledger_ok : Bool) :
      SysStep s (main_tick s t ledger_ok)
  | arrive (s : SysState) (m : Mail) :
      SysStep s { s with mailbox := s.mailbox ++ [m] }
  | pop (s : SysState) (now : Nat) (txn : Txn) (rest : List Txn)
      (hfree : s.pipe.processing = none)
      (hq : s.pipe.queue = txn :: rest)
      (hcool : s.pipe.last_processed + COOLDOWN_SECONDS ≤ now)
      (hmono : s.pipe.clock ≤ now) :
      SysStep s { s with pipe := popApply s.pipe txn rest now }
  | finish (s : SysState) (ok : Bool) (now : Nat) (txn : Txn)
      (hproc : s.pipe.processing = some txn)
      (hmono : s.pipe.clock ≤ now) :
      SysStep s { s with pipe := finishApply s.pipe txn ok now }

/-- The process state at startup (zenorc.py lines 35-41 and 73):
`seen_txn_ids` is whatever the ledger bootstrap returned, everything else
empty, `last_processed = 0.0`. -/
def initState (mb : List Mail) (boot : List Txn) : SysState :=
  { mailbox := mb
    seen_uids := []
    pipe :=
      { seen_txn_ids := boot
        statusMap := []
        queue := []
        last_processed := 0
        processing := none
        clock := 0
        enqueued := []
        dispatched := []
        terminalIds := []
        terminals := [] } }

/-- Reachability from startup with initial mailbox `mb` and ledger
bootstrap `boot`. -/
def Reach (mb : List Mail) (boot : List Txn) (s : SysState) : Prop :=
  Relation.ReflTransGen SysStep (initState mb boot) s

-- ── spec-side definition and concrete scenario states ──────────────

/-- Written from the claim's words (refinement target for the classifier):
accept exactly when the lowered body contains one of the exact phrases
`successfully credited` or `has been credited` and does not contain
`debited`. -/
def creditRuleSpec (body : List Char) : Bool :=
  (hasSub "successfully credited".data (lowerL body)
      || hasSub "has been credited".data (lowerL body))
    && !(hasSub "debited".data (lowerL body))

/-- A genuine credit mail whose ledger append will be made to fail. -/
def mailC2 : Mail := ⟨7, "Rs 5 has been credited. Reference No: 84500983".data⟩

/-- A mail the classifier rejects: `credited` alone, no accepted phrase. -/
def mailRej : Mail := ⟨1, "AMT5 credited, Reference No: 12345678".data⟩

/-- Two distinct accepted credit mails present in the same fetch window. -/
def mailOk1 : Mail := ⟨1, "Rs 5 successfully credited. Reference No: 11112222".data⟩

def mailOk2 : Mail := ⟨2, "Rs 5 has been credited. Reference No: 33334444".data⟩

/-- Mails driving the concrete two-dispatch execution used as witness
input: one failed dispatch, one successful one. -/
def mailW1 : Mail := ⟨11, "Rs 5 has been credited. Reference No: 50005000".data⟩

def mailW2 : Mail := ⟨12, "Rs 5 successfully credited. Reference No: 60006000".data⟩

/-- A concrete execution: startup with two unseen credit mails. -/
def ws0 : SysState := initState [mailW1, mailW2] []

/-- Tick at time 0: the newest mail (uid 12) is classified and enqueued. -/
def ws1 : SysState := main_tick ws0 0 true

/-- Pop at time 40 (cooldown from 0 elapsed). -/
def ws2 : SysState := { ws1 with pipe := popApply ws1.pipe "60006000".data [] 40 }

/-- The dispatch fails at time 45; the transaction is `Failed`. -/
def ws3 : SysState := { ws2 with pipe := finishApply ws2.pipe "60006000".data false 45 }

/-- Tick at time 46: the older mail (uid 11) is classified and enqueued. -/
def ws4 : SysState := main_tick ws3 46 true

/-- Pop at time 90 (a full cooldown after the failed dispatch at 45). -/
def ws5 : SysState := { ws4 with pipe := popApply ws4.pipe "50005000".data [] 90 }

/-- The second dispatch succeeds at time 92. -/
def ws6 : SysState := { ws5 with pipe := finishApply ws5.pipe "50005000".data true 92 }

-- ── the inductive invariant of the pipeline ────────────────────────

/-- Dict assignment then lookup on association lists. -/
theorem lookup_set (m : List (Txn × TxnStatus)) (k : Txn) (v : TxnStatus) (t : Txn) :
    lookupSt (setSt m k v) t = if k = t then some v else lookupSt m t := by
  induction m with
  | nil => simp [setSt, lookupSt]
  | cons hd tl ih =>
    obtain ⟨k', v'⟩ := hd
    by_cases hk : k' = k
    · subst hk
      simp only [setSt, if_pos rfl, lookupSt]
      by_cases ht : k' = t
      · simp [ht]
      · simp [ht, lookupSt]
    · simp only [setSt, if_neg hk, lookupSt]
      by_cases ht : k' = t
      · have hkt : ¬ k = t := fun hh => hk (ht.trans hh.symm)
        simp [ht, hkt]
      · simp [ht, ih]

/-- The inductive invariant tying the ghost history to the live state:
the ids ever enqueued are exactly the ids ever popped followed by the
current queue; the ids ever popped are the terminally-settled ids plus
the one in flight; no id is enqueued twice; ids in the queue have status
`Queued`; every enqueued id has a status entry; terminal timestamps
(newest first) are spaced by at least the cooldown; the newest terminal
timestamp is `last_processed`; and while a dispatch is in flight the
cooldown had elapsed at the moment it was popped. -/
structure PInv (p : PipeState) : Prop where
  enq_eq : p.enqueued = p.dispatched ++ p.queue
  disp_eq : p.dispatched = p.terminalIds ++ p.processing.toList
  nd : (p.dispatched ++ p.queue).Nodup
  qstat : ∀ t ∈ p.queue, lookupSt p.statusMap t = some TxnStatus.Queued
  estat : ∀ t ∈ p.enqueued, (lookupSt p.statusMap t).isSome = true
  chain : List.Chain' (fun a b => b + COOLDOWN_SECONDS ≤ a) p.terminals
  thead : ∀ x, p.terminals.head? = some x → x = p.last_processed
  lp_clock : p.last_processed ≤ p.clock
  proc_gap : p.processing.isSome = true → p.last_processed + COOLDOWN_SECONDS ≤ p.clock

theorem pinv_init (mb : List Mail) (boot : List Txn) : PInv (initState mb boot).pipe := by
  refine ⟨rfl, rfl, List.nodup_nil, ?_, ?_, List.chain'_nil, ?_, le_refl 0, ?_⟩
  · intro t ht; simp [initState] at ht
  · intro t ht; simp [initState] at ht
  · intro x hx; simp [initState] at hx
  · intro hc; simp [initState] at hc

theorem pinv_ingest (p : PipeState) (res : Option Txn) (ok : Bool) (h : PInv p) :
    PInv (ingestStep p res ok) := by
  match res with
  | none => exact h
  | some txn =>
    by_cases hg : lookupSt p.statusMap txn = none ∧ txn ∉ p.seen_txn_ids
    · simp only [ingestStep, if_pos hg]
      have hfresh : txn ∉ p.dispatched ++ p.queue := by
        intro hmem
        have hmem' : txn ∈ p.enqueued := by rw [h.enq_eq]; exact hmem
        have := h.estat txn hmem'
        rw [hg.1] at this
        simp at this
      refine ⟨?_, h.disp_eq, ?_, ?_, ?_, h.chain, h.thead, h.lp_clock, h.proc_gap⟩
      · show p.enqueued ++ [txn] = p.dispatched ++ (p.queue ++ [txn])
        rw [h.enq_eq, List.append_assoc]
      · show (p.dispatched ++ (p.queue ++ [txn])).Nodup
        rw [← List.append_assoc]
        refine List.Nodup.append h.nd (List.nodup_singleton txn) ?_
        intro a ha hb
        rw [List.mem_singleton] at hb
        subst hb
        exact hfresh ha
      · intro t ht
        rw [lookup_set]
        by_cases he : txn = t
        · simp [he]
        · rw [if_neg he]
          rcases List.mem_append.mp ht with h1 | h1
          · exact h.qstat t h1
          · rw [List.mem_singleton] at h1
            exact absurd h1.symm he
      · intro t ht
        by_cases he : txn = t
        · rw [lookup_set, if_pos he]; rfl
        · rw [lookup_set, if_neg he]
          rcases List.mem_append.mp ht with h1 | h1
          · exact h.estat t h1
          · rw [List.mem_singleton] at h1
            exact absurd h1.symm he
    · simp only [ingestStep, if_neg hg]
      exact h

theorem pinv_pop (p : PipeState) (txn : Txn) (rest : List Txn) (now : Nat)
    (hfree : p.processing = none) (hq : p.queue = txn :: rest)
    (hcool : p.last_processed + COOLDOWN_SECONDS ≤ now) (hmono : p.clock ≤ now)
    (h : PInv p) : PInv (popApply p txn rest now) := by
  have hnd' : (p.dispatched ++ (txn :: rest)).Nodup := by rw [← hq]; exact h.nd
  have htr : txn ∉ rest := by
    have h2 := (List.nodup_append.mp hnd').2.1
    exact (List.nodup_cons.mp h2).1
  refine ⟨?_, ?_, ?_, ?_, ?_, h.chain, h.thead, ?_, ?_⟩
  · show p.enqueued = (p.dispatched ++ [txn]) ++ rest
    rw [h.enq_eq, hq, List.append_assoc]
    rfl
  · show p.dispatched ++ [txn] = p.terminalIds ++ (some txn).toList
    have hd : p.dispatched = p.terminalIds := by
      have := h.disp_eq
      rw [hfree] at this
      simpa using this
    rw [hd]
    rfl
  · show ((p.dispatched ++ [txn]) ++ rest).Nodup
    rw [List.append_assoc]
    exact hnd'
  · intro t ht
    show lookupSt (setSt p.statusMap txn TxnStatus.Processing) t = some TxnStatus.Queued
    rw [lookup_set]
    have hne : txn ≠ t := fun he => htr (by rw [he]; exact ht)
    rw [if_neg hne]
    exact h.qstat t (by rw [hq]; exact List.mem_cons_of_mem _ ht)
  · intro t ht
    show (lookupSt (setSt p.statusMap txn TxnStatus.Processing) t).isSome = true
    by_cases he : txn = t
    · rw [lookup_set, if_pos he]; rfl
    · rw [lookup_set, if_neg he]
      exact h.estat t ht
  · exact le_trans h.lp_clock hmono
  · intro _
    exact hcool

theorem pinv_fin (p : PipeState) (txn : Txn) (ok : Bool) (now : Nat)
    (hproc : p.processing = some txn) (hmono : p.clock ≤ now)
    (h : PInv p) : PInv (finishApply p txn ok now) := by
  have hdisp : p.dispatched = p.terminalIds ++ [txn] := by
    have := h.disp_eq
    rw [hproc] at this
    exact this
  have htd : txn ∈ p.dispatched := by
    rw [hdisp]
    exact List.mem_append_right _ (List.mem_singleton_self txn)
  have htq : txn ∉ p.queue := by
    intro hmem
    exact (List.nodup_append.mp h.nd).2.2 htd hmem
  have hgap : p.last_processed + COOLDOWN_SECONDS ≤ p.clock :=
    h.proc_gap (by rw [hproc]; rfl)
  refine ⟨h.enq_eq, ?_, h.nd, ?_, ?_, ?_, ?_, le_refl now, ?_⟩
  · show p.dispatched = (p.terminalIds ++ [txn]) ++ (Option.toList none)
    rw [hdisp]
    simp
  · intro t ht
    show lookupSt (setSt p.statusMap txn (if ok then TxnStatus.Completed else TxnStatus.Failed)) t
      = some TxnStatus.Queued
    rw [lookup_set]
    have hne : txn ≠ t := fun he => htq (by rw [he]; exact ht)
    rw [if_neg hne]
    exact h.qstat t ht
  · intro t ht
    show (lookupSt (setSt p.statusMap txn (if ok then TxnStatus.Completed else TxnStatus.Failed)) t).isSome = true
    by_cases he : txn = t
    · rw [lookup_set, if_pos he]; rfl
    · rw [lookup_set, if_neg he]
      exact h.estat t ht
  · show List.Chain' (fun a b => b + COOLDOWN_SECONDS ≤ a) (now :: p.terminals)
    cases hT : p.terminals with
    | nil => simp
    | cons hd tl =>
      rw [List.chain'_cons]
      constructor
      · have hhd : hd = p.last_processed := h.thead hd (by rw [hT]; rfl)
        rw [hhd]
        exact le_trans hgap hmono
      · rw [← hT]
        exact h.chain
  · intro x hx
    exact (Option.some.inj hx).symm
  · intro hc
    simp [finishApply] at hc

theorem pinv_step {s s' : SysState} (h : PInv s.pipe) (hs : SysStep s s') :
    PInv s'.pipe := by
  cases hs with
  | tick t ok => exact pinv_ingest s.pipe (poll_email s.seen_uids s.mailbox t).found ok h
  | arrive m => exact h
  | pop now txn rest hfree hq hcool hmono => exact pinv_pop s.pipe txn rest now hfree hq hcool hmono h
  | finish ok now txn hproc hmono => exact pinv_fin s.pipe txn ok now hproc hmono h

theorem pinv_reach (mb : List Mail) (boot : List Txn) (s : SysState)
    (h : Reach mb boot s) : PInv s.pipe := by
  induction h with
  | refl => exact pinv_init mb boot
  | tail _ hstep ih => exact pinv_step ih hstep

-- ── substring lemmas and the classifier characterization ───────────

theorem hasPre_iff (n h : List Char) : hasPre n h = true ↔ ∃ s, h = n ++ s := by
  induction n generalizing h with
  | nil => simp [hasPre]
  | cons a as ih =>
    cases h with
    | nil => simp [hasPre]
    | cons b bs =>
      by_cases hab : a = b
      · subst hab
        simp [hasPre, ih]
      · simp only [hasPre, if_neg hab]
        constructor
        · intro h0
          simp at h0
        · rintro ⟨s, hs⟩
          simp only [List.cons_append] at hs
          injection hs with h1 h2
          exact absurd h1.symm hab

theorem hasSub_iff (n h : List Char) : hasSub n h = true ↔ ∃ p s, h = p ++ n ++ s := by
  induction h with
  | nil =>
    simp only [hasSub, List.isEmpty_iff]
    constructor
    · intro hn
      exact ⟨[], [], by simp [hn]⟩
    · rintro ⟨p, s, hs⟩
      rcases List.append_eq_nil.mp hs.symm with ⟨h1, h2⟩
      rcases List.append_eq_nil.mp h1 with ⟨h3, h4⟩
      exact h4
  | cons c cs ih =>
    simp only [hasSub, Bool.or_eq_true, ih, hasPre_iff]
    constructor
    · rintro (⟨s, hs⟩ | ⟨p, s, hs⟩)
      · exact ⟨[], s, by simp [hs]⟩
      · exact ⟨c :: p, s, by simp [hs]⟩
    · rintro ⟨p, s, hs⟩
      cases p with
      | nil => exact Or.inl ⟨s, by simpa using hs⟩
      | cons x xs =>
        right
        simp only [List.cons_append] at hs
        injection hs with h1 h2
        exact ⟨xs, s, h2⟩

theorem hasSub_trans {a b c : List Char} (h1 : hasSub a b = true) (h2 : hasSub b c = true) :
    hasSub a c = true := by
  rw [hasSub_iff] at h1 h2 ⊢
  obtain ⟨p1, s1, e1⟩ := h1
  obtain ⟨p2, s2, e2⟩ := h2
  refine ⟨p2 ++ p1, s1 ++ s2, ?_⟩
  rw [e2, e1]
  simp [List.append_assoc]

/-- The classifier equals the phrase rule: the outer `"credited" in body`
conjunct of `_looks_like_credit` is redundant, since each accepted phrase
contains `credited` as a substring. -/
theorem looks_eq_rule (body : List Char) : looks_like_credit body = creditRuleSpec body := by
  simp only [looks_like_credit, creditRuleSpec]
  cases hsc : hasSub "successfully credited".data (lowerL body) with
  | true =>
    have hc : hasSub "credited".data (lowerL body) = true :=
      hasSub_trans (by decide) hsc
    simp [hc, hsc]
  | false =>
    cases hhb : hasSub "has been credited".data (lowerL body) with
    | true =>
      have hc : hasSub "credited".data (lowerL body) = true :=
        hasSub_trans (by decide) hhb
      simp [hc, hsc, hhb]
    | false => simp [hsc, hhb]

theorem classify_isSome (body : List Char) (t : Nat) :
    (classify body t).isSome = looks_like_credit body := by
  unfold classify
  cases h : looks_like_credit body <;> simp [h]

/-- C10: the classifier accepts a body exactly when it contains one of the
phrases `successfully credited` or `has been credited` case-insensitively
and does not contain `debited`; the body
`AMT5 credited, Reference No: 12345678`, which has the bare word
`credited` only, is rejected despite its valid reference number. -/
theorem c10_classifier_rule :
    (∀ body, looks_like_credit body = creditRuleSpec body)
      ∧ looks_like_credit "AMT5 credited, Reference No: 12345678".data = false :=
  ⟨looks_eq_rule, by decide⟩

/-- C1 counterexample: a body containing none of the configured
`SEARCH_STRINGS` markers (in any casing) is nevertheless accepted by the
classifier and yields a transaction id — `SEARCH_STRINGS` is never
consulted by `_looks_like_credit`. -/
theorem c1_counterexample :
    (classify "Your account has been credited. Reference No: 845009839012".data 0).isSome = true
      ∧ SEARCH_STRINGS.all
          (fun m => !(hasSub m
            (lowerL "Your account has been credited. Reference No: 845009839012".data))) = true := by
  constructor
  · decide
  · decide

/-- C1 amended: classification does not consult the configured
currency/amount markers at all; a body yields a transaction id exactly
when it passes the credit/debit language rule, whether or not any
`SEARCH_STRINGS` marker occurs in it. -/
theorem c1_amended_marker_free :
    ∀ body t, (classify body t).isSome
      = ((hasSub "successfully credited".data (lowerL body)
            || hasSub "has been credited".data (lowerL body))
          && !(hasSub "debited".data (lowerL body))) := by
  intro body t
  rw [classify_isSome, looks_eq_rule]
  rfl

-- ── the dispatcher retry bound ─────────────────────────────────────

/-- When every attempt in the next `r` slots raises, the loop walks all of
them, counting one attempt each and one sleep between consecutive ones. -/
theorem send_loop_all_raises (f : Nat → MqttAttempt) :
    ∀ r a made sleeps, (∀ i, a ≤ i → i < a + r → f i = MqttAttempt.raises) →
      send_loop f a r made sleeps = (false, made + r, sleeps + (r - 1)) := by
  intro r
  induction r with
  | zero =>
    intro a made sleeps _
    simp [send_loop]
  | succ k ih =>
    intro a made sleeps hall
    have hfa : f a = MqttAttempt.raises := hall a le_rfl (by omega)
    have step : send_loop f a (k + 1) made sleeps
        = send_loop f (a + 1) k (made + 1) (if k = 0 then sleeps else sleeps + 1) := by
      simp only [send_loop, hfa]
    rw [step]
    cases k with
    | zero => simp [send_loop]
    | succ k2 =>
      have hif : (if k2 + 1 = 0 then sleeps else sleeps + 1) = sleeps + 1 := by simp
      rw [hif, ih (a + 1) (made + 1) (sleeps + 1) (fun i h1 h2 => hall i (by omega) (by omega))]
      simp only [Prod.mk.injEq, true_and]
      omega

/-- When the first attempt reaches `client.publish`, the loop returns that
attempt's verdict at once: one attempt made, no sleep, result `rc == 0`. -/
theorem send_loop_first_publish (f : Nat → MqttAttempt) (a rc : Nat) (r made sleeps : Nat)
    (h1 : f a = MqttAttempt.publishRc rc) :
    send_loop f a (r + 1) made sleeps = (decide (rc = 0), made + 1, sleeps) := by
  simp only [send_loop, h1]

/-- C3 counterexample: an attempt failure surfacing as a non-zero publish
result code — as an authentication-rejected connection or a failed
publish does in this code — is not retried: with `max_retries = 3` the
call makes a single attempt and returns `False` immediately. -/
theorem c3_counterexample :
    send_mqtt (fun _ => MqttAttempt.publishRc 4) 3 = (false, 1, 0) := by
  decide

/-- C3 amended: only failures that raise out of the `try` body — a
transport-level connect failure or the connect-acknowledgement timeout —
are retried up to `max_retries` with the fixed delay between attempts; a
failure surfacing as a non-zero `client.publish` result code (the shape
an authentication rejection or a publish failure takes here) ends the
call after that single attempt with `False`. -/
theorem c3_amended_retry_policy :
    ∀ f max_retries,
      ((∀ i, 1 ≤ i → i ≤ max_retries → f i = MqttAttempt.raises) →
          (send_mqtt f max_retries).2.1 = max_retries)
        ∧ (∀ rc, f 1 = MqttAttempt.publishRc rc → 1 ≤ max_retries →
            (send_mqtt f max_retries).2.1 = 1) := by
  intro f n
  constructor
  · intro hall
    have h := send_loop_all_raises f n 1 0 0 (fun i hi1 hi2 => hall i hi1 (by omega))
    unfold send_mqtt
    rw [h]
    simp
  · intro rc h1 hn
    obtain ⟨m, hm⟩ : ∃ m, n = m + 1 := ⟨n - 1, by omega⟩
    subst hm
    unfold send_mqtt
    rw [send_loop_first_publish f 1 rc m 0 0 h1]

/-- Witness for C3: all three attempts raising yields three attempts. -/
theorem c3_amended_retry_policy_w :
    (send_mqtt (fun _ => MqttAttempt.raises) 3).2.1 = 3 :=
  (c3_amended_retry_policy (fun _ => MqttAttempt.raises) 3).1 (fun _ _ _ => rfl)

/-- C7 counterexample: with every attempt failing (each reached publish
returns code 1), the call makes one attempt, not `max_retries = 3`. -/
theorem c7_counterexample :
    send_mqtt (fun _ => MqttAttempt.publishRc 1) 3 = (false, 1, 0)
      ∧ (send_mqtt (fun _ => MqttAttempt.publishRc 1) 3).2.1 ≠ 3 := by
  constructor
  · decide
  · decide

/-- C7 amended: when every attempt fails by raising, the call makes
exactly `max_retries` attempts, sleeps the retry delay between
consecutive attempts only (`max_retries - 1` sleeps, none after the
last), and returns `False` without raising; when an attempt's publish
returns a non-zero code the call instead returns `False` right after
that attempt, with no sleep, never exceeding the bound either way. -/
theorem c7_amended_exact_attempts :
    ∀ f max_retries,
      ((∀ i, 1 ≤ i → i ≤ max_retries → f i = MqttAttempt.raises) →
          send_mqtt f max_retries = (false, max_retries, max_retries - 1))
        ∧ (∀ rc, f 1 = MqttAttempt.publishRc rc → rc ≠ 0 → 1 ≤ max_retries →
            send_mqtt f max_retries = (false, 1, 0)) := by
  intro f n
  constructor
  · intro hall
    have h := send_loop_all_raises f n 1 0 0 (fun i hi1 hi2 => hall i hi1 (by omega))
    unfold send_mqtt
    rw [h]
    simp
  · intro rc h1 hrc hn
    obtain ⟨m, hm⟩ : ∃ m, n = m + 1 := ⟨n - 1, by omega⟩
    subst hm
    unfold send_mqtt
    rw [send_loop_first_publish f 1 rc m 0 0 h1]
    simp [hrc]

/-- Witness for C7: four raising attempts give four attempts, three
sleeps and failure. -/
theorem c7_amended_exact_attempts_w :
    send_mqtt (fun _ => MqttAttempt.raises) 4 = (false, 4, 3) :=
  (c7_amended_exact_attempts (fun _ => MqttAttempt.raises) 4).1 (fun _ _ _ => rfl)

-- ── ingestion pass behaviour ───────────────────────────────────────

/-- A pass that returns no id keeps `seen_uids` unchanged, yet every
examined mail of the list — every one not skipped via `seen_uids` — has
its uid in the `marked` flags set by its fetch. -/
theorem poll_go_none (t : Nat) :
    ∀ l seen marked, (poll_go t seen marked l).found = none →
      (poll_go t seen marked l).seen = seen
        ∧ (∀ u ∈ marked, u ∈ (poll_go t seen marked l).marked)
        ∧ ∀ m ∈ l, m.uid ∉ seen → m.uid ∈ (poll_go t seen marked l).marked := by
  intro l
  induction l with
  | nil =>
    intro seen marked _
    refine ⟨rfl, fun u hu => hu, ?_⟩
    intro m hm
    simp at hm
  | cons m rest ih =>
    intro seen marked hf
    by_cases hm : m.uid ∈ seen
    · have he : poll_go t seen marked (m :: rest) = poll_go t seen marked rest := by
        simp [poll_go, hm]
      rw [he] at hf ⊢
      obtain ⟨h1, h2, h3⟩ := ih seen marked hf
      refine ⟨h1, h2, ?_⟩
      intro m' hm' hns
      rcases List.mem_cons.mp hm' with he' | he'
      · exact absurd (he' ▸ hm) hns
      · exact h3 m' he' hns
    · cases hc : classify m.body t with
      | some txn =>
        have he : poll_go t seen marked (m :: rest)
            = ⟨m.uid :: seen, marked ++ [m.uid], some txn⟩ := by
          simp [poll_go, hm, hc]
        rw [he] at hf
        simp at hf
      | none =>
        have he : poll_go t seen marked (m :: rest)
            = poll_go t seen (marked ++ [m.uid]) rest := by
          simp [poll_go, hm, hc]
        rw [he] at hf ⊢
        obtain ⟨h1, h2, h3⟩ := ih seen (marked ++ [m.uid]) hf
        refine ⟨h1, ?_, ?_⟩
        · intro u hu
          exact h2 u (List.mem_append_left _ hu)
        · intro m' hm' hns
          rcases List.mem_cons.mp hm' with he' | he'
          · exact he' ▸ h2 m.uid (List.mem_append_right _ (List.mem_singleton_self _))
          · exact h3 m' he' hns

/-- C5 counterexample: a fetched notification the classifier rejects is
never added to the in-memory consumed set `seen_uids` (the add happens
only in the accept branch), so the claimed marking of its source
reference as consumed fails; the flag the mail does receive comes only
implicitly from the fetch itself. -/
theorem c5_counterexample :
    looks_like_credit mailRej.body = false
      ∧ (poll_email [] [mailRej] 0).seen = []
      ∧ (poll_email [] [mailRej] 0).marked = [1]
      ∧ (main_tick (initState [mailRej] []) 0 true).seen_uids = [] := by
  refine ⟨by decide, by decide, by decide, by decide⟩

/-- C5 amended: a pass in which the classifier accepts nothing leaves the
in-memory consumed set and the whole pipeline untouched — rejected uids
never enter `seen_uids` — but the RFC822 fetch implicitly flags every
examined message `\Seen` at the server, so an examined-but-rejected
message still leaves the unseen mailbox and is not fetched again on
later passes. -/
theorem c5_amended_reject_flagged :
    ∀ s t ok, (poll_email s.seen_uids s.mailbox t).found = none →
      (main_tick s t ok).seen_uids = s.seen_uids
        ∧ (main_tick s t ok).pipe = s.pipe
        ∧ ∀ m ∈ pollWindow s.mailbox, m.uid ∉ s.seen_uids →
            m ∉ (main_tick s t ok).mailbox := by
  intro s t ok hf
  obtain ⟨h1, _h2, h3⟩ := poll_go_none t (pollWindow s.mailbox) s.seen_uids [] hf
  refine ⟨h1, ?_, ?_⟩
  · show ingestStep s.pipe (poll_email s.seen_uids s.mailbox t).found ok = s.pipe
    rw [hf]
    rfl
  · intro m hm hns
    have hmark : m.uid ∈ (poll_email s.seen_uids s.mailbox t).marked := h3 m hm hns
    intro hcon
    have hpred := (List.mem_filter.mp hcon).2
    exact (of_decide_eq_true hpred) hmark

/-- Witness for C5: after a later pass over the rejected mail, the
consumed set and pipeline are unchanged and the mail has left the
unseen mailbox. -/
theorem c5_amended_reject_flagged_w :
    (main_tick (initState [mailRej] []) 5 true).seen_uids = (initState [mailRej] []).seen_uids
      ∧ (main_tick (initState [mailRej] []) 5 true).pipe = (initState [mailRej] []).pipe
      ∧ mailRej ∉ (main_tick (initState [mailRej] []) 5 true).mailbox := by
  have h := c5_amended_reject_flagged (initState [mailRej] []) 5 true (by decide)
  exact ⟨h.1, h.2.1, h.2.2 mailRej (by decide) (by decide)⟩

/-- C6 counterexample: with two distinct accepted credit notifications in
the fetched window, the tick enqueues only the newest one (the pass
returns at its first acceptance); the other mail is untouched and waits
for a later tick, so not every fetched notification is processed in the
same tick. -/
theorem c6_counterexample :
    looks_like_credit mailOk1.body = true
      ∧ looks_like_credit mailOk2.body = true
      ∧ (main_tick (initState [mailOk1, mailOk2] []) 0 true).pipe.queue
          = ["33334444".data]
      ∧ (main_tick (initState [mailOk1, mailOk2] []) 0 true).mailbox = [mailOk1] := by
  refine ⟨by decide, by decide, by decide, by decide⟩

/-- C6 amended: one ingestion tick enqueues at most one transaction —
`poll_email` returns at the first accepted notification (walking the
window newest-first) and leaves the remaining ones to later ticks. -/
theorem c6_amended_at_most_one :
    ∀ s t ok, (main_tick s t ok).pipe.enqueued.length
      ≤ s.pipe.enqueued.length + 1 := by
  intro s t ok
  show (ingestStep s.pipe (poll_email s.seen_uids s.mailbox t).found ok).enqueued.length ≤ _
  cases hr : (poll_email s.seen_uids s.mailbox t).found with
  | none => simp [ingestStep]
  | some txn =>
    simp only [ingestStep]
    split
    · simp
    · simp

-- ── the concrete two-dispatch execution ────────────────────────────

/-- The six-step execution `ws0 → … → ws6` is reachable: two ticks, two
pops, a failed and then a successful dispatch, cooldown respected. -/
theorem reach_ws6 : Reach [mailW1, mailW2] [] ws6 := by
  have h1 : SysStep ws0 ws1 := SysStep.tick ws0 0 true
  have h2 : SysStep ws1 ws2 :=
    SysStep.pop ws1 40 "60006000".data [] (by decide) (by decide) (by decide) (by decide)
  have h3 : SysStep ws2 ws3 :=
    SysStep.finish ws2 false 45 "60006000".data (by decide) (by decide)
  have h4 : SysStep ws3 ws4 := SysStep.tick ws3 46 true
  have h5 : SysStep ws4 ws5 :=
    SysStep.pop ws4 90 "50005000".data [] (by decide) (by decide) (by decide) (by decide)
  have h6 : SysStep ws5 ws6 :=
    SysStep.finish ws5 true 92 "50005000".data (by decide) (by decide)
  exact .tail (.tail (.tail (.tail (.tail (.single h1) h2) h3) h4) h5) h6

-- ── the queue/scheduler claims ─────────────────────────────────────

/-- C2 counterexample: one reachable tick whose ledger append fails
(`ledger_ok = false`) enqueues the accepted id without ever adding it to
`seen_txn_ids` — `log_payment` performs `seen_txn_ids.add` inside its
`try`, after the append, so the failing append skips it — violating the
claimed invariant that the known-ids set contains every id ever placed
in the queue. -/
theorem c2_counterexample :
    Reach [mailC2] [] (main_tick (initState [mailC2] []) 0 false)
      ∧ "84500983".data ∈ (main_tick (initState [mailC2] []) 0 false).pipe.enqueued
      ∧ "84500983".data ∉ (main_tick (initState [mailC2] []) 0 false).pipe.seen_txn_ids := by
  refine ⟨Relation.ReflTransGen.single (SysStep.tick (initState [mailC2] []) 0 false), ?_, ?_⟩
  · decide
  · decide

/-- C2 amended: at every reachable state, every id ever appended to the
dispatch queue is known to the process through `seen_txn_ids` or through
the status map (the status entry is written unconditionally before the
enqueue; the `seen_txn_ids` entry only when the ledger append succeeds —
on ledger failure the enqueue still proceeds with the id recorded in the
status map alone). -/
theorem c2_amended_known_or_status :
    ∀ mb boot s, Reach mb boot s →
      ∀ t ∈ s.pipe.enqueued,
        t ∈ s.pipe.seen_txn_ids ∨ (lookupSt s.pipe.statusMap t).isSome = true := by
  intro mb boot s h t ht
  exact Or.inr ((pinv_reach mb boot s h).estat t ht)

/-- Witness for C2: the id dispatched second in the concrete execution is
known at `ws6`. -/
theorem c2_amended_known_or_status_w :
    "50005000".data ∈ ws6.pipe.seen_txn_ids
      ∨ (lookupSt ws6.pipe.statusMap "50005000".data).isSome = true :=
  c2_amended_known_or_status [mailW1, mailW2] [] ws6 reach_ws6 "50005000".data (by decide)

/-- C4: at every reachable state the terminal-transition timestamps,
newest first, are pairwise separated by at least `COOLDOWN_SECONDS`; and
the terminal transition sets `last_processed` to the current time for
both outcomes, so a failed dispatch also consumes a full cooldown
window. -/
theorem c4_cooldown_floor :
    (∀ mb boot s, Reach mb boot s →
        List.Chain' (fun t2 t1 => t1 + COOLDOWN_SECONDS ≤ t2) s.pipe.terminals)
      ∧ ∀ p txn ok now, (finishApply p txn ok now).last_processed = now := by
  constructor
  · intro mb boot s h
    exact (pinv_reach mb boot s h).chain
  · intro p txn ok now
    rfl

/-- Witness for C4: the concrete execution's two terminal transitions, at
45 (Failed) and 92 (Completed), satisfy the floor `45 + 40 ≤ 92`. -/
theorem c4_cooldown_floor_w :
    List.Chain' (fun t2 t1 => t1 + COOLDOWN_SECONDS ≤ t2) ws6.pipe.terminals
      ∧ (finishApply ws2.pipe "60006000".data false 45).last_processed = 45 :=
  ⟨c4_cooldown_floor.1 [mailW1, mailW2] [] ws6 reach_ws6,
   c4_cooldown_floor.2 ws2.pipe "60006000".data false 45⟩

/-- C8: at every reachable state the ids ever enqueued are exactly the
ids ever popped followed by the current queue — the scheduler pops
exactly the FIFO head, so the dispatch (Processing) order coincides
positionally with the enqueue order: whoever is enqueued strictly
earlier starts processing no later. -/
theorem c8_fifo_order :
    ∀ mb boot s, Reach mb boot s →
      s.pipe.enqueued = s.pipe.dispatched ++ s.pipe.queue
        ∧ ∀ i, i < s.pipe.dispatched.length →
            s.pipe.dispatched[i]? = s.pipe.enqueued[i]? := by
  intro mb boot s h
  have hp := pinv_reach mb boot s h
  refine ⟨hp.enq_eq, ?_⟩
  intro i hi
  rw [hp.enq_eq]
  exact (List.getElem?_append_left hi).symm

/-- Witness for C8: at `ws6` both ids were popped in enqueue order. -/
theorem c8_fifo_order_w :
    ws6.pipe.enqueued = ws6.pipe.dispatched ++ ws6.pipe.queue :=
  (c8_fifo_order [mailW1, mailW2] [] ws6 reach_ws6).1

/-- C9: at every reachable state no id was ever enqueued twice (so it is
in the queue at most once), every id in the queue has status `Queued`,
and no id underwent a terminal transition twice. -/
theorem c9_uniqueness :
    ∀ mb boot s, Reach mb boot s →
      s.pipe.enqueued.Nodup
        ∧ (∀ t ∈ s.pipe.queue, lookupSt s.pipe.statusMap t = some TxnStatus.Queued)
        ∧ s.pipe.terminalIds.Nodup := by
  intro mb boot s h
  have hp := pinv_reach mb boot s h
  refine ⟨?_, hp.qstat, ?_⟩
  · rw [hp.enq_eq]
    exact hp.nd
  · have hnd : s.pipe.dispatched.Nodup := (List.nodup_append.mp hp.nd).1
    rw [hp.disp_eq] at hnd
    exact (List.nodup_append.mp hnd).1

/-- Witness for C9: at `ws6` both settled ids are distinct and settled
once each. -/
theorem c9_uniqueness_w :
    ws6.pipe.enqueued.Nodup ∧ ws6.pipe.terminalIds.Nodup :=
  ⟨(c9_uniqueness [mailW1, mailW2] [] ws6 reach_ws6).1,
   (c9_uniqueness [mailW1, mailW2] [] ws6 reach_ws6).2.2⟩
